import Mathlib

/-!
# Verification of the becca_test benchmark worlds

A shallow embedding, over exact rational arithmetic, of the environment
simulation and scoring core of the `becca_test` repository: the 1-D grid
world (`becca_test/grid_1D.py`), the delayed-reward wrapper
(`grid_1D_delay.py`), the chase world (`beccatest/grid_1D_chase.py`), the
2-D grid world (`beccatest/grid_2D.py`), the visual-servo worlds
(`beccatest/image_1D.py`, `beccatest/image_2D.py`), the center-surround
transform (`beccatest/world_tools.py`) and the driving loop
(`beccatest/test.py`).

Python/numpy floats are modelled as `ℚ`; all the constants involved
(halves, sixths, twelfths, hundredths) are exact in binary or appear only
through exact rational identities, so the rational model tracks the float
code except at the extreme of float rounding, which none of the claims
turn on.  Random draws (`np.random.random_sample`, `np.random.randint`,
`np.random.normal`) are passed in explicitly as parameters.
-/

namespace BeccaTest

/-- Numpy `np.round`: round half to even (banker's rounding), as numpy does. -/
def npRound (x : ℚ) : ℚ :=
  let f : ℤ := ⌊x⌋
  let d : ℚ := x - f
  if d < 1/2 then (f : ℚ)
  else if 1/2 < d then (f + 1 : ℤ)
  else if f % 2 = 0 then (f : ℚ) else (f + 1 : ℤ)

/-- Python `int(...)` on a float: truncation toward zero. -/
def truncToInt (x : ℚ) : ℤ :=
  if 0 ≤ x then ⌊x⌋ else ⌈x⌉

/-- Numpy `np.remainder x m`, and the pattern `x -= m * np.floor_divide(x, m)`:
the representative of `x` modulo `m` lying in `[0, m)` for `m > 0`. -/
def pyMod (x m : ℚ) : ℚ := x - m * ⌊x / m⌋

theorem pyMod_nonneg (x : ℚ) {m : ℚ} (hm : 0 < m) : 0 ≤ pyMod x m := by
  have h := Int.floor_le (x / m)
  have : m * ⌊x / m⌋ ≤ m * (x / m) := by
    exact mul_le_mul_of_nonneg_left h (le_of_lt hm)
  rw [mul_div_cancel₀ x (ne_of_gt hm)] at this
  simpa [pyMod] using this

theorem pyMod_lt (x : ℚ) {m : ℚ} (hm : 0 < m) : pyMod x m < m := by
  have h := Int.lt_floor_add_one (x / m)
  have : m * (x / m) < m * (⌊x / m⌋ + 1) := by
    exact mul_lt_mul_of_pos_left h hm
  rw [mul_div_cancel₀ x (ne_of_gt hm)] at this
  have hexp : m * (⌊x / m⌋ + 1 : ℚ) = m * ⌊x / m⌋ + m := by ring
  rw [hexp] at this
  simp only [pyMod]
  linarith

/-!
## `becca_test/grid_1D.py` — one-dimensional grid world

`World.__init__`: `num_sensors = 9`, `num_actions = 8`,
`energy_cost = 1/100`, `world_state = 0`, `simple_state = 0`,
`jump_fraction = 0.1`, `energy = 0`, `timestep = -1` (from `base_world`).
-/

/-- State of the `grid_1D` world: the fields of the Python object that
`step` reads or writes (visualization-only fields omitted). -/
structure Grid1DState where
  timestep : ℤ
  worldState : ℚ
  simpleState : ℤ
  energy : ℚ
  deriving DecidableEq, Repr

/-- The `World.__init__` of `grid_1D.py` (the fields relevant to `step`). -/
def grid1D_init : Grid1DState :=
  { timestep := -1, worldState := 0, simpleState := 0, energy := 0 }

/-- The constant `jump_fraction = 0.1` in `grid_1D.py`. -/
def grid1D_jumpFraction : ℚ := 1/10

/-- The constant `energy_cost = 1. / 100.` in `grid_1D.py`. -/
def grid1D_energyCost : ℚ := 1/100

/-- The position/sensor part of `World.step` of `grid_1D.py`
(lines 91–139): round the action, accumulate the step size and the
energy, move, optionally jump to `num_sensors * random_sample()`,
wrap into `[0, 9)` via `world_state -= 9 * floor_divide(world_state, 9)`,
discretize with `int(np.floor(...))` and the `== 9` guard, and build the
one-hot sensor array.  `jumpDraw` is the `np.random.random_sample()`
compared against `jump_fraction`; `jumpPos` is the second
`random_sample()` used when the jump fires. -/
def grid1D_advance (s : Grid1DState) (action : List ℚ) (jumpDraw jumpPos : ℚ) :
    Grid1DState × List ℚ :=
  let a := action.map npRound
  let g := fun i => a.getD i 0
  let stepSize := g 0 + g 1 * 2 + g 2 * 3 + g 3 * 4
                - g 4 - g 5 * 2 - g 6 * 3 - g 7 * 4
  let energy := g 0 + g 1 * 2 + g 2 * 3 + g 3 * 4
              + g 4 + g 5 * 2 + g 6 * 3 + g 7 * 4
  let ws1 := s.worldState + stepSize
  -- at random intervals, jump to a random position in the world
  let ws2 := if jumpDraw < grid1D_jumpFraction then 9 * jumpPos else ws1
  -- ensure that the world state falls between 0 and 9
  let ws3 := ws2 - 9 * (⌊ws2 / 9⌋ : ℤ)
  let simple0 : ℤ := ⌊ws3⌋   -- int(np.floor(ws3))
  let simple : ℤ := if simple0 = 9 then 0 else simple0
  let sensors := (List.replicate 9 (0:ℚ)).set simple.toNat 1
  ({ timestep := s.timestep + 1, worldState := ws3,
     simpleState := simple, energy := energy }, sensors)

/-- The `World.assign_reward` of `grid_1D.py` (lines 145–166):
`reward = sensors[3] - sensors[8] - energy * energy_cost`, floor-clamped
at `-1`. -/
def grid1D_assignReward (sensors : List ℚ) (energy : ℚ) : ℚ :=
  max (0 - sensors.getD 8 0 + sensors.getD 3 0 - energy * grid1D_energyCost) (-1)

/-- The `World.step` of `grid_1D.py`: advance, then assign the reward. -/
def grid1D_step (s : Grid1DState) (action : List ℚ) (jumpDraw jumpPos : ℚ) :
    Grid1DState × List ℚ × ℚ :=
  let (s', sensors) := grid1D_advance s action jumpDraw jumpPos
  (s', sensors, grid1D_assignReward sensors s'.energy)

/-!
## `beccatest/grid_2D.py` — two-dimensional grid world

`World.__init__`: `reward_magnitude = 1`, `energy_cost = 0.05`,
`jump_fraction = 0.1`, `num_actions = 8`, `world_size = 5`,
`num_sensors = 25`, `world_state = [1., 1.]`, `targets = [(1,1),(3,3)]`,
`obstacles = [(1,3),(3,1)]`.
-/

/-- State of the `grid_2D` world: the two coordinates of `world_state`. -/
structure Grid2DState where
  timestep : ℤ
  w0 : ℚ
  w1 : ℚ
  deriving DecidableEq, Repr

/-- The `World.__init__` of `grid_2D.py`: `world_state = np.array([1., 1.])`. -/
def grid2D_init : Grid2DState := { timestep := -1, w0 := 1, w1 := 1 }

/-- The pair of lines `self.action = action.ravel()` followed by
`self.action[np.nonzero(self.action)] = 1.` in `grid_2D.py` (and the
identical pair of lines in `image_1D.py` / `image_2D.py`).  For a 1-D
input `ravel` returns a view sharing the caller's buffer, and the
fancy-indexed assignment writes through that view, so this function is
both the world's thresholded action *and* the contents of the caller's
array after `step` returns. -/
def ravelThreshold (action : List ℚ) : List ℚ :=
  action.map (fun x => if x = 0 then x else 1)

/-- In `grid_1D.py` the corresponding lines are `self.action = action`
followed by `self.action = np.round(self.action)`: `np.round` allocates a
fresh array and the name is rebound, so the caller's buffer is left
untouched.  This function is the contents of the caller's array after
`grid_1D.step` returns. -/
def grid1D_callerActionAfterStep (action : List ℚ) : List ℚ := action

/-- The `World.step` of `grid_2D.py` (lines 92–142): threshold the action
(in place, through the `ravel` view), move both coordinates, optionally
jump to a pair of `np.random.randint(0, 5)` draws, wrap both coordinates
into `[0, 5)` with `np.remainder`, build the one-hot sensors, and assign
the reward by comparing the position tuple against the obstacle and
target tuples before subtracting the energy cost.  `jumpR`/`jumpC` are
the two `randint(0, world_size)` draws (modelled as arbitrary naturals
reduced mod 5). -/
def grid2D_step (s : Grid2DState) (action : List ℚ) (jumpDraw : ℚ)
    (jumpR jumpC : ℕ) : Grid2DState × List ℚ × ℚ :=
  let a := ravelThreshold action
  let g := fun i => a.getD i 0
  let x0 := s.w0 + (g 0 - g 4 + 2 * g 2 - 2 * g 6)
  let x1 := s.w1 + (g 1 - g 5 + 2 * g 3 - 2 * g 7)
  let energy := (g 0 + g 1) + (g 4 + g 5) + (2 * g 2 + 2 * g 3)
              + (2 * g 6 + 2 * g 7)
  -- at random intervals, jump to a random position in the world
  let y0 := if jumpDraw < 1/10 then ((jumpR % 5 : ℕ) : ℚ) else x0
  let y1 := if jumpDraw < 1/10 then ((jumpC % 5 : ℕ) : ℚ) else x1
  -- enforce the limits of the grid world by looping around
  let z0 := pyMod y0 5
  let z1 := pyMod y1 5
  -- assign_sensors: one-hot at world_state[0] + world_state[1] * 5
  let sensors := (List.replicate 25 (0:ℚ)).set (truncToInt (z0 + z1 * 5)).toNat 1
  -- obstacles then targets (assignment, not accumulation), then energy
  let reward0 : ℚ :=
    if (z0, z1) = ((3:ℚ), (3:ℚ)) ∨ (z0, z1) = ((1:ℚ), (1:ℚ)) then 1
    else if (z0, z1) = ((1:ℚ), (3:ℚ)) ∨ (z0, z1) = ((3:ℚ), (1:ℚ)) then -1
    else 0
  let reward := reward0 - (1/20) * energy
  ({ timestep := s.timestep + 1, w0 := z0, w1 := z1 }, sensors, reward)

/-- The discretized position produced by `grid1D_advance` is always
in `[0, 9)`: the wrap `ws -= 9 * floor_divide(ws, 9)` lands in `[0, 9)`
and flooring preserves the bounds (the `== 9` guard is then vacuous). -/
theorem grid1D_advance_simpleState_bounds (s : Grid1DState) (action : List ℚ)
    (jumpDraw jumpPos : ℚ) :
    0 ≤ (grid1D_advance s action jumpDraw jumpPos).1.simpleState ∧
      (grid1D_advance s action jumpDraw jumpPos).1.simpleState < 9 := by
  simp only [grid1D_advance]
  generalize (if jumpDraw < grid1D_jumpFraction then 9 * jumpPos
    else s.worldState + _) = ws2
  have h9 : (0:ℚ) < 9 := by norm_num
  have h0 : 0 ≤ pyMod ws2 9 := pyMod_nonneg ws2 h9
  have h1 : pyMod ws2 9 < 9 := pyMod_lt ws2 h9
  have hfl0 : 0 ≤ ⌊pyMod ws2 9⌋ := Int.floor_nonneg.2 h0
  have hfl1 : ⌊pyMod ws2 9⌋ < 9 := Int.floor_lt.2 (by exact_mod_cast h1)
  have hne : ⌊pyMod ws2 9⌋ ≠ 9 := by omega
  simp only [pyMod] at hfl0 hfl1 hne
  simp only [if_neg hne]
  exact ⟨hfl0, hfl1⟩

/-- C3: in the wraparound grid worlds, the discretized state is inside the
grid after every `step`, for every incoming state, action vector and
random-draw outcome: `grid_1D` keeps `0 ≤ simple_state < 9` and `grid_2D`
keeps each coordinate of `world_state` in `[0, 5)`. -/
theorem grid_wraparound_state_bounds :
    (∀ (s : Grid1DState) (action : List ℚ) (jumpDraw jumpPos : ℚ),
      0 ≤ (grid1D_step s action jumpDraw jumpPos).1.simpleState ∧
        (grid1D_step s action jumpDraw jumpPos).1.simpleState < 9) ∧
    (∀ (s : Grid2DState) (action : List ℚ) (jumpDraw : ℚ) (jumpR jumpC : ℕ),
      0 ≤ (grid2D_step s action jumpDraw jumpR jumpC).1.w0 ∧
        (grid2D_step s action jumpDraw jumpR jumpC).1.w0 < 5 ∧
      0 ≤ (grid2D_step s action jumpDraw jumpR jumpC).1.w1 ∧
        (grid2D_step s action jumpDraw jumpR jumpC).1.w1 < 5) := by
  constructor
  · intro s action jumpDraw jumpPos
    have h := grid1D_advance_simpleState_bounds s action jumpDraw jumpPos
    simpa [grid1D_step] using h
  · intro s action jumpDraw jumpR jumpC
    have h5 : (0:ℚ) < 5 := by norm_num
    simp only [grid2D_step]
    exact ⟨pyMod_nonneg _ h5, pyMod_lt _ h5, pyMod_nonneg _ h5, pyMod_lt _ h5⟩

/-- C7 (counterexample): in `grid_1D`, starting at position 0 and stepping
+4 (action index 3 set, no jump draw firing), the returned reward is
`-1/25 = -0.04`, which differs from the claimed `1.0` minus the energy
cost `4 * energy_cost = 0.04` — the rewarded sensor is index 3, and a +4
step from 0 lands on index 4. -/
theorem grid1D_plus4_reward_counterexample :
    (grid1D_step grid1D_init [0, 0, 0, 1, 0, 0, 0, 0] (1/2) 0).2.2 = -(1/25) ∧
    (-(1/25) : ℚ) ≠ 1 - 4 * grid1D_energyCost ∧ (-(1/25) : ℚ) ≠ 1 := by
  norm_num [grid1D_step, grid1D_advance, grid1D_assignReward, grid1D_init,
    grid1D_jumpFraction, grid1D_energyCost, npRound,
    List.replicate, List.set, List.getD]

/-- C7 (amended): in `grid_1D` (size 9, sensor index 3 rewarded +1, index
8 punished −1, `energy_cost = 1/100`), starting at position 0 and applying
the action that steps +4, on a tick where the random jump does not fire,
yields `simple_state == 4` and reward equal to minus the energy-cost term
alone, `-4 * energy_cost = -0.04` — position 4 is unrewarded; the
rewarded position is index 3. -/
theorem grid1D_step_plus4_from_origin (jumpDraw jumpPos : ℚ)
    (hnojump : ¬ jumpDraw < grid1D_jumpFraction) :
    (grid1D_step grid1D_init [0, 0, 0, 1, 0, 0, 0, 0] jumpDraw jumpPos).1.simpleState
        = 4 ∧
    (grid1D_step grid1D_init [0, 0, 0, 1, 0, 0, 0, 0] jumpDraw jumpPos).2.2
        = 0 - 4 * grid1D_energyCost := by
  simp only [grid1D_step, grid1D_advance, if_neg hnojump]
  norm_num [grid1D_assignReward, grid1D_init, grid1D_energyCost, npRound,
    List.replicate, List.set, List.getD]

/-- C7 (witness): the amended statement instantiated at the concrete
non-jumping draw `1/2`. -/
theorem grid1D_step_plus4_from_origin_witness :
    (grid1D_step grid1D_init [0, 0, 0, 1, 0, 0, 0, 0] (1/2) 0).1.simpleState = 4 ∧
    (grid1D_step grid1D_init [0, 0, 0, 1, 0, 0, 0, 0] (1/2) 0).2.2
        = 0 - 4 * grid1D_energyCost :=
  grid1D_step_plus4_from_origin (1/2) 0 (by norm_num [grid1D_jumpFraction])

/-!
## `grid_1D_delay.py` — delayed-reward wrapper over `grid_1D`

Present identically in both directory copies (`becca_test/grid_1D_delay.py`
and `beccatest/grid_1D_delay.py`): `max_delay = 1`,
`future_reward = [0.] * max_delay`, and `assign_reward` overridden to
route the freshly computed reward through the `future_reward` queue at a
slot drawn by `np.random.randint(0, max_delay)`.
-/

/-- Numpy `np.random.randint(lo, hi)`: a draw uniform over `[lo, hi)`, modelled
by reducing an arbitrary natural draw into the range. -/
def npRandint (lo hi draw : ℕ) : ℕ := lo + draw % (hi - lo)

/-- The constant `max_delay = 1` in `grid_1D_delay.py`. -/
def grid1DDelay_maxDelay : ℕ := 1

/-- The undelayed reward computed by `grid_1D_delay.assign_reward`:
`new_reward = sensors[3] - sensors[8] - energy * energy_cost`
(note: no `-1` floor clamp in this variant). -/
def grid1DDelay_newReward (sensors : List ℚ) (energy : ℚ) : ℚ :=
  0 - sensors.getD 8 0 + sensors.getD 3 0 - energy * grid1D_energyCost

/-- The `World.assign_reward` of `grid_1D_delay.py` (lines 51–76): add the
new reward into `future_reward[delay]` with
`delay = np.random.randint(0, max_delay)`, append a zero at the tail, and
pop and return the head.  Returns the delivered reward and the queue
after the call. -/
def grid1DDelay_assignReward (sensors : List ℚ) (energy : ℚ)
    (queue : List ℚ) (delayDraw : ℕ) : ℚ × List ℚ :=
  let newReward := grid1DDelay_newReward sensors energy
  let delay := npRandint 0 grid1DDelay_maxDelay delayDraw
  let q1 := queue.set delay (queue.getD delay 0 + newReward)
  let q2 := q1 ++ [0]
  (q2.headD 0, q2.tail)

/-- State of the `grid_1D_delay` world: the inherited `grid_1D` fields
plus the `future_reward` queue. -/
structure Grid1DDelayState where
  grid : Grid1DState
  queue : List ℚ
  deriving DecidableEq, Repr

/-- The `World.__init__` of `grid_1D_delay.py`:
the `grid_1D` init plus `future_reward = [0.] * max_delay`. -/
def grid1DDelay_init : Grid1DDelayState :=
  { grid := grid1D_init, queue := List.replicate grid1DDelay_maxDelay 0 }

/-- The per-tick inputs of a `grid_1D_delay` step: the agent's action and
the three random draws consumed by the step. -/
structure Grid1DDelayInput where
  action : List ℚ
  jumpDraw : ℚ
  jumpPos : ℚ
  delayDraw : ℕ

/-- The `World.step` of `grid_1D_delay.py`: the inherited `grid_1D.step`
position/sensor dynamics with the overridden delayed `assign_reward`. -/
def grid1DDelay_step (s : Grid1DDelayState) (i : Grid1DDelayInput) :
    Grid1DDelayState × List ℚ × ℚ :=
  let (g', sensors) := grid1D_advance s.grid i.action i.jumpDraw i.jumpPos
  let (reward, q') := grid1DDelay_assignReward sensors g'.energy s.queue i.delayDraw
  ({ grid := g', queue := q' }, sensors, reward)

/-- A finite run of the `grid_1D_delay` world: fold `step` over a list of
per-tick inputs, collecting the delivered reward and the computed
undelayed reward of every tick. -/
def grid1DDelay_run (s : Grid1DDelayState) :
    List Grid1DDelayInput → Grid1DDelayState × List ℚ × List ℚ
  | [] => (s, [], [])
  | i :: is =>
    let (g', sensors) := grid1D_advance s.grid i.action i.jumpDraw i.jumpPos
    let computed := grid1DDelay_newReward sensors g'.energy
    let (delivered, q') :=
      grid1DDelay_assignReward sensors g'.energy s.queue i.delayDraw
    let (sf, ds, cs) := grid1DDelay_run { grid := g', queue := q' } is
    (sf, delivered :: ds, computed :: cs)

/-- One delayed `assign_reward` call preserves the queue length
(`set` keeps it, the append adds one, the pop removes one). -/
theorem grid1DDelay_assignReward_queue_length (sensors : List ℚ) (energy : ℚ)
    (queue : List ℚ) (delayDraw : ℕ) :
    (grid1DDelay_assignReward sensors energy queue delayDraw).2.length
      = queue.length := by
  simp [grid1DDelay_assignReward]

/-- With `max_delay = 1` the drawn slot is `randint(0, 1) = 0`, so each
call adds the new reward to the single slot and immediately pops it:
starting from the queue `[q]`, the delivered reward is `q + new_reward`
and the queue is left at `[0]`. -/
theorem grid1DDelay_assignReward_singleton (sensors : List ℚ) (energy : ℚ)
    (q : ℚ) (delayDraw : ℕ) :
    grid1DDelay_assignReward sensors energy [q] delayDraw
      = (q + grid1DDelay_newReward sensors energy, [0]) := by
  simp [grid1DDelay_assignReward, npRandint, grid1DDelay_maxDelay, Nat.mod_one]

/-- Along any run whose queue starts at `[0]`, every delivered reward
equals that tick's computed reward and the queue stays `[0]`. -/
theorem grid1DDelay_run_immediate (g : Grid1DState)
    (inputs : List Grid1DDelayInput) :
    (grid1DDelay_run { grid := g, queue := [0] } inputs).2.1
      = (grid1DDelay_run { grid := g, queue := [0] } inputs).2.2 ∧
    (grid1DDelay_run { grid := g, queue := [0] } inputs).1.queue = [0] := by
  induction inputs generalizing g with
  | nil => simp [grid1DDelay_run]
  | cons i is ih =>
    simp only [grid1DDelay_run, grid1DDelay_assignReward_singleton]
    have h := ih (grid1D_advance g i.action i.jumpDraw i.jumpPos).1
    simp [h.1, h.2]

/-- A run never changes the length of the `future_reward` queue. -/
theorem grid1DDelay_run_queue_length (s : Grid1DDelayState)
    (inputs : List Grid1DDelayInput) :
    (grid1DDelay_run s inputs).1.queue.length = s.queue.length := by
  induction inputs generalizing s with
  | nil => rfl
  | cons i is ih =>
    simp only [grid1DDelay_run]
    rw [ih]
    exact grid1DDelay_assignReward_queue_length _ _ _ _

/-- C1: with `max_delay = 1`, `np.random.randint(0, max_delay)` is `0` for
every draw, so the reward computed at tick T is always delivered at tick T
(never at T+1, and not uniformly over the two): along every finite run
from the initial state, the list of delivered rewards is exactly the list
of computed undelayed rewards, and the unreturned tail is always `[0]`,
so the delivered and computed totals agree with a zero tail. -/
theorem grid1DDelay_reward_never_delayed :
    (∀ draw : ℕ, npRandint 0 grid1DDelay_maxDelay draw = 0) ∧
    ∀ inputs : List Grid1DDelayInput,
      (grid1DDelay_run grid1DDelay_init inputs).2.1
        = (grid1DDelay_run grid1DDelay_init inputs).2.2 ∧
      (grid1DDelay_run grid1DDelay_init inputs).1.queue = [0] := by
  constructor
  · intro draw
    simp [npRandint, grid1DDelay_maxDelay, Nat.mod_one]
  · intro inputs
    have hinit : grid1DDelay_init
        = { grid := grid1D_init, queue := [0] } := rfl
    rw [hinit]
    exact grid1DDelay_run_immediate grid1D_init inputs

/-- C8: the `future_reward` queue has length exactly
`max_delay = 1` before and after every `step` of every finite run of the
`grid_1D_delay` world (every initial segment of a run is itself a run, so the
statement over all input lists covers every step boundary). -/
theorem grid1DDelay_queue_length_eq_maxDelay
    (inputs : List Grid1DDelayInput) :
    (grid1DDelay_run grid1DDelay_init inputs).1.queue.length
      = grid1DDelay_maxDelay := by
  rw [grid1DDelay_run_queue_length]
  simp [grid1DDelay_init]

/-!
## `beccatest/grid_1D_chase.py` — chase world

`World.__init__`: `reward_magnitude = 1`, `energy_cost = 1/100`,
`size = 7`, `num_sensors = size + 2*(size-1) = 19`,
`num_actions = 2*(size-1) = 12`, `position = 2`, `target_position = 1`.
-/

/-- The constant `size = 7` in `grid_1D_chase.py`. -/
def chase_size : ℕ := 7

/-- State of the chase world. -/
structure ChaseState where
  timestep : ℤ
  position : ℤ
  targetPosition : ℤ
  deriving DecidableEq, Repr

/-- The `World.__init__` of `grid_1D_chase.py`:
`position = 2`, `target_position = 1`. -/
def chase_init : ChaseState := { timestep := -1, position := 2, targetPosition := 1 }

/-- The `World.move_target` of `grid_1D_chase.py` (lines 146–151):
`while target_position == position: target_position = int(np.random.randint(size))`.
The random draws are supplied as a list (each reduced into `[0, size)` as
`randint` does); the result is `none` if the supplied draws run out while
the loop is still spinning. -/
def chase_moveTarget : List ℕ → ℤ → ℤ → Option ℤ
  | draws, position, target =>
    if target = position then
      match draws with
      | [] => none
      | d :: ds => chase_moveTarget ds position ((npRandint 0 chase_size d : ℕ) : ℤ)
    else
      some target

/-- The `World.assign_reward` of `grid_1D_chase.py` (lines 154–162):
`+reward_magnitude` when the (just-updated) position equals the
(pre-relocation) target, minus `energy * energy_cost`. -/
def chase_assignReward (position target : ℤ) (energy : ℚ) : ℚ :=
  (if position = target then (1:ℚ) else 0) - energy * (1/100)

/-- The signed step of a chase action: round the action, then combine it
through the magnitude ladder `scale = np.arange(size - 1) + 1`
(`step` lines 117–120). -/
def chase_stepSize (action : List ℚ) : ℚ :=
  let a := action.map npRound
  let g := fun i => a.getD i 0
  ((List.range 6).map (fun i => g i * ((i:ℚ)+1))).sum
    - ((List.range 6).map (fun i => g (6+i) * ((i:ℚ)+1))).sum

/-- The energy of a chase action: the same magnitude ladder as
`chase_stepSize`, with both direction blocks added. -/
def chase_energy (action : List ℚ) : ℚ :=
  let a := action.map npRound
  let g := fun i => a.getD i 0
  ((List.range 6).map (fun i => g i * ((i:ℚ)+1))).sum
    + ((List.range 6).map (fun i => g (6+i) * ((i:ℚ)+1))).sum

/-- The clamped integer position after a chase step:
`position += step_size`, `position = np.minimum(position, size - 1)`,
`position = int(np.maximum(position, 0))`. -/
def chase_newPosition (s : ChaseState) (action : List ℚ) : ℤ :=
  truncToInt (max (min ((s.position : ℚ) + chase_stepSize action)
    ((chase_size : ℚ) - 1)) 0)

/-- The `World.step` of `grid_1D_chase.py` (lines 86–143): apply the rounded
action's signed step, clamp the position into `[0, 6]`, assign the reward
against the pre-relocation target, relocate the target, and build the
19-entry sensor array: a one-hot at the position, plus a one-hot
signed-distance encoding (`sensors[6 + |d|]` if the target is to the
right of the position, `sensors[12 + |d|]` otherwise).  Returns `none`
when `move_target` exhausts its draws. -/
def chase_step (s : ChaseState) (action : List ℚ) (targetDraws : List ℕ) :
    Option (ChaseState × List ℚ × ℚ) :=
  let energy := chase_energy action
  let pos : ℤ := chase_newPosition s action
  let reward := chase_assignReward pos s.targetPosition energy
  match chase_moveTarget targetDraws pos s.targetPosition with
  | none => none
  | some target' =>
    let distance : ℤ := pos - target'
    let sensors0 := (List.replicate 19 (0:ℚ)).set pos.toNat 1
    let sensors :=
      if distance < 0 then sensors0.set (6 + distance.natAbs) 1
      else sensors0.set (12 + distance.natAbs) 1
    some ({ timestep := s.timestep + 1, position := pos,
            targetPosition := target' }, sensors, reward)

/-- The loop in `move_target` only returns a target different from the position. -/
theorem chase_moveTarget_ne (draws : List ℕ) (position target t' : ℤ)
    (h : chase_moveTarget draws position target = some t') : t' ≠ position := by
  induction draws generalizing target with
  | nil =>
    rw [chase_moveTarget] at h
    by_cases he : target = position
    · simp [he] at h
    · simp only [if_neg he] at h
      exact (Option.some_inj.1 h) ▸ he
  | cons d ds ih =>
    rw [chase_moveTarget] at h
    by_cases he : target = position
    · simp only [if_pos he] at h
      exact ih _ h
    · simp only [if_neg he] at h
      exact (Option.some_inj.1 h) ▸ he

/-- The loop in `move_target` returns either the unchanged target or a redrawn value
in `[0, size)`. -/
theorem chase_moveTarget_range (draws : List ℕ) (position target t' : ℤ)
    (h : chase_moveTarget draws position target = some t') :
    t' = target ∨ (0 ≤ t' ∧ t' < 7) := by
  induction draws generalizing target with
  | nil =>
    rw [chase_moveTarget] at h
    by_cases he : target = position
    · simp [he] at h
    · simp only [if_neg he] at h
      exact Or.inl (Option.some_inj.1 h).symm
  | cons d ds ih =>
    rw [chase_moveTarget] at h
    by_cases he : target = position
    · simp only [if_pos he] at h
      rcases ih _ h with h1 | h1
      · right
        rw [h1]
        constructor
        · positivity
        · have : d % 7 < 7 := Nat.mod_lt _ (by norm_num)
          simp only [npRandint, chase_size]
          omega
      · exact Or.inr h1
    · simp only [if_neg he] at h
      exact Or.inl (Option.some_inj.1 h).symm

/-- Writing `1` at two distinct positions of a zero list gives sum `2`. -/
theorem twoHot_sum (n p q : ℕ) (hp : p < n) (hq : q < n) (hpq : p ≠ q) :
    (((List.replicate n (0:ℚ)).set p 1).set q 1).sum = 2 := by
  have hlen : ((List.replicate n (0:ℚ)).set p 1).length = n := by simp
  have h1 : ((List.replicate n (0:ℚ)).set p 1).sum = 1 := by
    rw [List.sum_set']
    simp [List.sum_replicate, hp]
  rw [List.sum_set', h1]
  rw [dif_pos (show q < ((List.replicate n (0:ℚ)).set p 1).length by
    rw [hlen]; exact hq)]
  rw [List.getElem_set_ne (by omega)]
  norm_num

/-- Every entry of the two-hot list is `0` or `1`. -/
theorem twoHot_mem (n p q : ℕ) (x : ℚ)
    (hx : x ∈ ((List.replicate n (0:ℚ)).set p 1).set q 1) : x = 0 ∨ x = 1 := by
  rcases List.mem_or_eq_of_mem_set hx with hx1 | hx1
  · rcases List.mem_or_eq_of_mem_set hx1 with hx2 | hx2
    · exact Or.inl (List.eq_of_mem_replicate hx2)
    · exact Or.inr hx2
  · exact Or.inr hx1

/-- In a list whose entries are all `0` or `1`, the number of `1`s is the
sum and the `0`s account for the rest of the length. -/
theorem count_of_zero_one_list : ∀ l : List ℚ, (∀ x ∈ l, x = 0 ∨ x = 1) →
    (l.count 1 : ℚ) = l.sum ∧ l.count 0 + l.count 1 = l.length := by
  intro l
  induction l with
  | nil => simp
  | cons a l ih =>
    intro h
    have ha := h a (List.mem_cons_self a l)
    have hl := ih (fun x hx => h x (List.mem_cons_of_mem a hx))
    rcases ha with ha | ha
    · subst ha
      simp only [List.count_cons, List.sum_cons, List.length_cons, beq_iff_eq]
      norm_num [hl.1]
      omega
    · subst ha
      simp only [List.count_cons, List.sum_cons, List.length_cons, beq_iff_eq]
      constructor
      · push_cast
        rw [hl.1]
        norm_num [add_comm]
      · norm_num
        omega

/-- The clamped chase position always lands in `[0, 6]`. -/
theorem chase_newPosition_bounds (s : ChaseState) (action : List ℚ) :
    0 ≤ chase_newPosition s action ∧ chase_newPosition s action < 7 := by
  unfold chase_newPosition truncToInt
  set x := max (min ((s.position : ℚ) + chase_stepSize action)
    ((chase_size : ℚ) - 1)) 0 with hx
  have hx0 : 0 ≤ x := le_max_right _ _
  have hx6 : x ≤ 6 := max_le
    (le_trans (min_le_right _ _) (by norm_num [chase_size])) (by norm_num)
  rw [if_pos hx0]
  exact ⟨Int.floor_nonneg.2 hx0,
    Int.floor_lt.2 (lt_of_le_of_lt hx6 (by norm_num))⟩

/-- C5: whenever `chase_step` returns, the relocated target differs from
the agent's position, even though the reward of that same step was
computed against the pre-relocation target. -/
theorem chase_step_target_distinct (s s' : ChaseState) (action : List ℚ)
    (targetDraws : List ℕ) (sensors : List ℚ) (reward : ℚ)
    (h : chase_step s action targetDraws = some (s', sensors, reward)) :
    s'.targetPosition ≠ s'.position ∧
    reward = chase_assignReward s'.position s.targetPosition
      (chase_energy action) := by
  rcases hmt : chase_moveTarget targetDraws (chase_newPosition s action)
      s.targetPosition with _ | t'
  · rw [chase_step, hmt] at h
    simp at h
  · rw [chase_step, hmt] at h
    simp only [Option.some_inj, Prod.mk.injEq] at h
    obtain ⟨hs, _, hr⟩ := h
    have hne := chase_moveTarget_ne targetDraws _ _ _ hmt
    rw [← hs]
    exact ⟨hne, hr.symm⟩

/-- C5 (witness): from the initial state (position 2, target 1), a zero
action keeps the position at 2, the target stays 1 without any redraw,
and the invariant and reward equations hold concretely. -/
theorem chase_step_target_distinct_witness :
    ((1 : ℤ) ≠ (2 : ℤ)) ∧
    (0 : ℚ) = chase_assignReward 2 1 (chase_energy (List.replicate 12 0)) := by
  have h : chase_step chase_init (List.replicate 12 0) [] =
      some ({ timestep := 0, position := 2, targetPosition := 1 },
        ((List.replicate 19 (0:ℚ)).set 2 1).set 13 1, 0) := by
    norm_num [chase_step, chase_newPosition, chase_stepSize, chase_energy,
      chase_assignReward, chase_moveTarget, chase_init, chase_size,
      npRound, truncToInt, List.range_succ, Int.toNat_ofNat]
    rfl
  have := chase_step_target_distinct chase_init
    { timestep := 0, position := 2, targetPosition := 1 }
    (List.replicate 12 0) [] (((List.replicate 19 (0:ℚ)).set 2 1).set 13 1)
    0 h
  simpa using this

/-- C9: from any state whose target is inside the grid, the sensor array
returned by `chase_step` holds exactly two entries equal to `1` — one in
the 7-entry position block, one in the signed-distance blocks — and zeros
elsewhere, so its sum is `2` (not `1` as in the plain grid worlds). -/
theorem chase_step_sensors_two_hot (s s' : ChaseState) (action : List ℚ)
    (targetDraws : List ℕ) (sensors : List ℚ) (reward : ℚ)
    (htgt : 0 ≤ s.targetPosition ∧ s.targetPosition < 7)
    (h : chase_step s action targetDraws = some (s', sensors, reward)) :
    sensors.sum = 2 ∧ sensors.count 1 = 2 ∧ sensors.count 0 = 17 ∧
      sensors.length = 19 := by
  rcases hmt : chase_moveTarget targetDraws (chase_newPosition s action)
      s.targetPosition with _ | t'
  · rw [chase_step, hmt] at h
    simp at h
  · rw [chase_step, hmt] at h
    simp only [Option.some_inj, Prod.mk.injEq] at h
    obtain ⟨_, hsens, _⟩ := h
    have hpos := chase_newPosition_bounds s action
    have htne := chase_moveTarget_ne targetDraws _ _ _ hmt
    have htrange := chase_moveTarget_range targetDraws _ _ _ hmt
    have ht' : 0 ≤ t' ∧ t' < 7 := by
      rcases htrange with h1 | h1
      · rw [h1]; exact htgt
      · exact h1
    set pos := chase_newPosition s action with hposdef
    set d : ℤ := pos - t' with hd
    have hd0 : d ≠ 0 := by omega
    have hfacts : pos.toNat < 19 ∧
        (d < 0 → 7 ≤ 6 + d.natAbs ∧ 6 + d.natAbs < 19 ∧
          pos.toNat ≠ 6 + d.natAbs) ∧
        (¬ d < 0 → 7 ≤ 12 + d.natAbs ∧ 12 + d.natAbs < 19 ∧
          pos.toNat ≠ 12 + d.natAbs) := by
      refine ⟨by omega, fun _ => ⟨by omega, by omega, by omega⟩,
        fun hnd => ⟨by omega, by omega, by omega⟩⟩
    by_cases hdneg : d < 0
    · rw [← hsens]
      simp only [← hd, if_pos hdneg]
      obtain ⟨hq1, hq2, hpq⟩ := hfacts.2.1 hdneg
      have hsum := twoHot_sum 19 pos.toNat (6 + d.natAbs) hfacts.1 hq2 hpq
      have hmem := fun x hx => twoHot_mem 19 pos.toNat (6 + d.natAbs) x hx
      have hcnt := count_of_zero_one_list _ hmem
      have hlen : (((List.replicate 19 (0:ℚ)).set pos.toNat 1).set
          (6 + d.natAbs) 1).length = 19 := by simp
      have hc1 : (((List.replicate 19 (0:ℚ)).set pos.toNat 1).set
          (6 + d.natAbs) 1).count 1 = 2 := by
        have := hcnt.1
        rw [hsum] at this
        exact_mod_cast this
      refine ⟨hsum, hc1, ?_, hlen⟩
      have := hcnt.2
      omega
    · rw [← hsens]
      simp only [← hd, if_neg hdneg]
      obtain ⟨hq1, hq2, hpq⟩ := hfacts.2.2 hdneg
      have hsum := twoHot_sum 19 pos.toNat (12 + d.natAbs) hfacts.1 hq2 hpq
      have hmem := fun x hx => twoHot_mem 19 pos.toNat (12 + d.natAbs) x hx
      have hcnt := count_of_zero_one_list _ hmem
      have hlen : (((List.replicate 19 (0:ℚ)).set pos.toNat 1).set
          (12 + d.natAbs) 1).length = 19 := by simp
      have hc1 : (((List.replicate 19 (0:ℚ)).set pos.toNat 1).set
          (12 + d.natAbs) 1).count 1 = 2 := by
        have := hcnt.1
        rw [hsum] at this
        exact_mod_cast this
      refine ⟨hsum, hc1, ?_, hlen⟩
      have := hcnt.2
      omega

/-- C9 (witness): the concrete zero-action step from the initial chase
state returns the sensor array with ones exactly at indices 2 and 13. -/
theorem chase_step_sensors_two_hot_witness :
    (((List.replicate 19 (0:ℚ)).set 2 1).set 13 1).sum = 2 ∧
    (((List.replicate 19 (0:ℚ)).set 2 1).set 13 1).count 1 = 2 ∧
    (((List.replicate 19 (0:ℚ)).set 2 1).set 13 1).count 0 = 17 ∧
    (((List.replicate 19 (0:ℚ)).set 2 1).set 13 1).length = 19 := by
  have h : chase_step chase_init (List.replicate 12 0) [] =
      some ({ timestep := 0, position := 2, targetPosition := 1 },
        ((List.replicate 19 (0:ℚ)).set 2 1).set 13 1, 0) := by
    norm_num [chase_step, chase_newPosition, chase_stepSize, chase_energy,
      chase_assignReward, chase_moveTarget, chase_init, chase_size,
      npRound, truncToInt, List.range_succ, Int.toNat_ofNat]
    rfl
  exact chase_step_sensors_two_hot chase_init
    { timestep := 0, position := 2, targetPosition := 1 }
    (List.replicate 12 0) [] (((List.replicate 19 (0:ℚ)).set 2 1).set 13 1)
    0 (by norm_num [chase_init]) h

/-!
## `beccatest/test.py` — the driving loop

`run(world)` primes the world with one `step` on a zero action, then
loops `while world.is_alive(): ... world.step(actions) ...`.
`base_world.World.is_alive` is `return self.timestep < self.lifespan`,
a pure comparison, and `timestep` starts at `-1` and is incremented by
exactly one at the top of every `step` of every world.  The loop is
modelled over an arbitrary world-state type `W`: a step maps
`(timestep, w)` to `(timestep + 1, f timestep w)`, which is exactly the
class of worlds the claim quantifies over. -/

/-- The `World.is_alive` of `base_world.py` (lines 74–82):
`timestep < lifespan`, a pure query. -/
def testRun_isAlive (timestep : ℤ) (lifespan : ℕ) : Bool :=
  timestep < (lifespan : ℤ)

/-- The `while world.is_alive()` loop of `run` in `test.py` (lines
169–172), counting the `world.step` calls it makes.  Returns the final
`(timestep, rest-of-state)` pair and the number of loop iterations. -/
def testRun_loop {W : Type} (f : ℤ → W → W) (lifespan : ℕ) (t : ℤ) (w : W) :
    (ℤ × W) × ℕ :=
  if testRun_isAlive t lifespan then
    let r := testRun_loop f lifespan (t + 1) (f t w)
    (r.1, r.2 + 1)
  else ((t, w), 0)
termination_by ((lifespan : ℤ) - t).toNat
decreasing_by
  simp only [testRun_isAlive, decide_eq_true_eq] at *
  omega

/-- The function `run` of `test.py` (lines 140–174): one priming `step` on the zero
action (taking `timestep` from `-1` to `0`), then the `is_alive` loop.
Returns the final `(timestep, state)` and the total number of `step`
calls made. -/
def testRun_run {W : Type} (f : ℤ → W → W) (lifespan : ℕ) (w0 : W) :
    (ℤ × W) × ℕ :=
  let w1 := f (-1) w0
  let r := testRun_loop f lifespan 0 w1
  (r.1, r.2 + 1)

/-- The loop from timestep `t` makes exactly `(lifespan - t)⁺` iterations
and, when it starts alive or at the boundary, ends at `timestep =
lifespan`. -/
theorem testRun_loop_count {W : Type} (f : ℤ → W → W) (lifespan : ℕ) :
    ∀ (n : ℕ) (t : ℤ) (w : W), ((lifespan : ℤ) - t).toNat = n →
      (testRun_loop f lifespan t w).2 = n ∧
      (t ≤ lifespan → (testRun_loop f lifespan t w).1.1 = lifespan) := by
  intro n
  induction n with
  | zero =>
    intro t w hn
    have hdead : ¬ testRun_isAlive t lifespan = true := by
      simp only [testRun_isAlive, decide_eq_true_eq]
      omega
    rw [testRun_loop, if_neg hdead]
    exact ⟨rfl, fun hle => by simp; omega⟩
  | succ n ih =>
    intro t w hn
    have halive : testRun_isAlive t lifespan = true := by
      simp only [testRun_isAlive, decide_eq_true_eq]
      omega
    rw [testRun_loop, if_pos halive]
    have h := ih (t + 1) (f t w) (by omega)
    exact ⟨by simp [h.1], fun _ => by simp [h.2 (by omega)]⟩

/-- C10: for every world whose `step` increments `timestep` by exactly one
per call starting from `-1` (modelled as `(t, w) ↦ (t + 1, f t w)` for an
arbitrary per-tick update `f`) and every lifespan `L`, the driving loop of
`test.py` terminates after exactly `L + 1` calls to `step` — the priming
call plus one call per loop iteration — ending at `timestep = L`, with
`is_alive` the pure query `timestep < lifespan`. -/
theorem testRun_step_count {W : Type} (f : ℤ → W → W) (lifespan : ℕ)
    (w0 : W) :
    (testRun_run f lifespan w0).2 = lifespan + 1 ∧
    (testRun_run f lifespan w0).1.1 = lifespan ∧
    ∀ t : ℤ, (testRun_isAlive t lifespan = true ↔ t < (lifespan : ℤ)) := by
  have h := testRun_loop_count f lifespan lifespan 0 (f (-1) w0)
    (by omega)
  refine ⟨?_, ?_, ?_⟩
  · simp only [testRun_run, h.1]
  · simp only [testRun_run]
    exact h.2 (by omega)
  · intro t
    simp [testRun_isAlive]

/-- C2 (counterexample): in `grid_2D.step` (and identically in
`image_1D.step` / `image_2D.step`), `self.action = action.ravel()`
aliases the caller's 1-D buffer and
`self.action[np.nonzero(self.action)] = 1.` writes through it, so after
`step` returns with the action `[0.5, 0, ..., 0]` the caller's array
holds `[1, 0, ..., 0]`, not its original contents. -/
theorem grid2D_caller_action_mutated_counterexample :
    ravelThreshold [1/2, 0, 0, 0, 0, 0, 0, 0] = [1, 0, 0, 0, 0, 0, 0, 0] ∧
    ([1, 0, 0, 0, 0, 0, 0, 0] : List ℚ) ≠ [1/2, 0, 0, 0, 0, 0, 0, 0] := by
  norm_num [ravelThreshold]

/-- C2 (amended): `grid_1D.step` never mutates the caller's action array
(it rebinds `self.action` to the fresh array `np.round` returns), but the
worlds that use the `ravel`-and-threshold idiom (`grid_2D`, `image_1D`,
`image_2D`) write through the caller's buffer: the caller's array is
unchanged exactly when every entry is already `0` or `1`. -/
theorem caller_action_after_step :
    (∀ action : List ℚ, grid1D_callerActionAfterStep action = action) ∧
    (∀ action : List ℚ,
      ravelThreshold action = action ↔ ∀ x ∈ action, x = 0 ∨ x = 1) := by
  refine ⟨fun action => rfl, fun action => ?_⟩
  induction action with
  | nil => simp [ravelThreshold]
  | cons a l ih =>
    simp only [ravelThreshold, List.map_cons, List.cons.injEq, List.mem_cons]
    constructor
    · rintro ⟨h1, h2⟩
      intro x hx
      rcases hx with hx | hx
      · subst hx
        by_cases ha : x = 0
        · exact Or.inl ha
        · rw [if_neg ha] at h1
          exact Or.inr h1.symm
      · exact (ih.1 h2) x hx
    · intro h
      refine ⟨?_, ih.2 (fun x hx => h x (Or.inr hx))⟩
      rcases h a (Or.inl rfl) with ha | ha
      · rw [if_pos ha]
      · rw [ha]
        simp

/-!
## `beccatest/image_1D.py` and `beccatest/image_2D.py` — visual servo

The code is Python 2 (`random_integers`, integer `/` on list indices in
`visualize_world`), so `/` between the integer image dimensions is floor
division; it is modelled with `ℕ` division.  The center-surround sensor
construction is modelled separately (`center_surround` below) and does
not feed the reward, so the step embeddings here carry the position and
reward logic of `step`.
-/

/-- The configuration of `image_1D.py` derived from the loaded image in
`__init__`: `max_step_size = image_width / 2`,
`target_column = image_width / 2`,
`reward_region_width = image_width / 8`,
`column_min = ceil(fov_width / 2)`, `column_max = image_width - column_min`
(with `fov_width = min(data.shape)`).  `reward_magnitude = 1`,
`step_cost = 0.1`, `noise_magnitude = 0.1`, `jump_fraction = 0.1`. -/
structure Image1DConfig where
  imageWidth : ℕ
  fovWidth : ℕ

def Image1DConfig.maxStepSize (cfg : Image1DConfig) : ℕ := cfg.imageWidth / 2

def Image1DConfig.targetColumn (cfg : Image1DConfig) : ℕ := cfg.imageWidth / 2

def Image1DConfig.rewardRegionWidth (cfg : Image1DConfig) : ℕ :=
  cfg.imageWidth / 8

def Image1DConfig.columnMin (cfg : Image1DConfig) : ℕ := cfg.fovWidth / 2

def Image1DConfig.columnMax (cfg : Image1DConfig) : ℤ :=
  (cfg.imageWidth : ℤ) - cfg.columnMin

/-- State of the `image_1D` world: the field-of-view column position and
the most recent `column_step` (stored by `step` into `self.column_step`).
The `column_history` list is visualization-only and omitted. -/
structure Image1DState where
  timestep : ℤ
  columnPosition : ℤ
  columnStep : ℚ
  deriving DecidableEq, Repr

/-- The pre-noise commanded column step of `image_1D.step` (lines
166–173): threshold the action in place, combine through the halving
magnitude ladder `max_step_size / 2, / 4, / 8, / 16`, and `np.round`. -/
def image1D_rawStep (cfg : Image1DConfig) (action : List ℚ) : ℚ :=
  let a := ravelThreshold action
  let g := fun i => a.getD i 0
  let mss : ℚ := (cfg.maxStepSize : ℚ)
  npRound (g 0 * mss / 2 + g 1 * mss / 4 + g 2 * mss / 8 + g 3 * mss / 16
         - g 4 * mss / 2 - g 5 * mss / 4 - g 6 * mss / 8 - g 7 * mss / 16)

/-- The post-noise column step of `image_1D.step` (lines 174–176):
multiply by `noise_magnitude * u1 * 2 + 1 - noise_magnitude * u2 * 2`
(`u1`, `u2` the two `random_sample()` draws) and `np.round` again. -/
def image1D_noisyStep (cfg : Image1DConfig) (action : List ℚ)
    (u1 u2 : ℚ) : ℚ :=
  npRound (image1D_rawStep cfg action * ((1/10) * u1 * 2 + 1 - (1/10) * u2 * 2))

/-- The `World.step` of `image_1D.py` (lines 143–205), position and reward:
move by `int(column_step)`, clamp into `[column_min, column_max]`,
optionally saccade to `jumpPos` (a `random_integers(column_min,
column_max)` draw), and score `+1` when the field-of-view center is
strictly within `reward_region_width / 2` of `target_column`, minus the
step cost `|column_step| / max_step_size * step_cost`. -/
def image1D_step (cfg : Image1DConfig) (s : Image1DState) (action : List ℚ)
    (u1 u2 jumpDraw : ℚ) (jumpPos : ℤ) : Image1DState × ℚ :=
  let columnStep := image1D_noisyStep cfg action u1 u2
  let pos1 := s.columnPosition + truncToInt columnStep
  let pos2 := max pos1 (cfg.columnMin : ℤ)
  let pos3 := min pos2 cfg.columnMax
  let pos4 := if jumpDraw < 1/10 then jumpPos else pos3
  let reward : ℚ :=
    (if |(pos4 : ℚ) - (cfg.targetColumn : ℚ)| < (cfg.rewardRegionWidth : ℚ) / 2
      then 1 else 0)
    - |columnStep| / (cfg.maxStepSize : ℚ) * (1/10)
  ({ timestep := s.timestep + 1, columnPosition := pos4,
     columnStep := columnStep }, reward)

/-- The configuration of `image_2D.py` derived from the loaded image:
`im_size = min(height, width)`, `max_step_size = im_size / 2`,
`target_row = height / 2`, `target_column = width / 2`,
`reward_region_width = im_size / 8`, `fov_height = fov_width =
im_size * 0.5`, `row_min = ceil(fov_height / 2)`,
`row_max = height - row_min`, and likewise for columns.
`reward_magnitude = 1`, `jump_fraction = 0.05`,
`noise_magnitude = 0.1`; no step cost appears in `__init__` or `step`. -/
structure Image2DConfig where
  imHeight : ℕ
  imWidth : ℕ

def Image2DConfig.imSize (cfg : Image2DConfig) : ℕ :=
  min cfg.imHeight cfg.imWidth

def Image2DConfig.maxStepSize (cfg : Image2DConfig) : ℕ := cfg.imSize / 2

def Image2DConfig.targetRow (cfg : Image2DConfig) : ℕ := cfg.imHeight / 2

def Image2DConfig.targetColumn (cfg : Image2DConfig) : ℕ := cfg.imWidth / 2

def Image2DConfig.rewardRegionWidth (cfg : Image2DConfig) : ℕ :=
  cfg.imSize / 8

def Image2DConfig.rowMin (cfg : Image2DConfig) : ℤ := ⌈(cfg.imSize : ℚ) / 4⌉

def Image2DConfig.rowMax (cfg : Image2DConfig) : ℤ :=
  (cfg.imHeight : ℤ) - cfg.rowMin

def Image2DConfig.columnMin (cfg : Image2DConfig) : ℤ := ⌈(cfg.imSize : ℚ) / 4⌉

def Image2DConfig.columnMax (cfg : Image2DConfig) : ℤ :=
  (cfg.imWidth : ℤ) - cfg.columnMin

/-- State of the `image_2D` world: the field-of-view position. -/
structure Image2DState where
  timestep : ℤ
  rowPosition : ℤ
  columnPosition : ℤ
  deriving DecidableEq, Repr

/-- The commanded row step of `image_2D.step` (lines 179–186 and
196–197): magnitude ladder over action entries 0–7, `np.round`, then
multiplicative `1 + normal(scale=0.1)` noise (`n1` the normal draw) and
`np.round` again. -/
def image2D_rowStep (cfg : Image2DConfig) (action : List ℚ) (n1 : ℚ) : ℚ :=
  let a := ravelThreshold action
  let g := fun i => a.getD i 0
  let mss : ℚ := (cfg.maxStepSize : ℚ)
  npRound (npRound (g 0 * mss / 2 + g 1 * mss / 4 + g 2 * mss / 8
    + g 3 * mss / 16 - g 4 * mss / 2 - g 5 * mss / 4 - g 6 * mss / 8
    - g 7 * mss / 16) * (1 + n1))

/-- The commanded column step of `image_2D.step` (lines 187–194 and
198–199): the same ladder over action entries 8–15. -/
def image2D_columnStep (cfg : Image2DConfig) (action : List ℚ) (n2 : ℚ) : ℚ :=
  let a := ravelThreshold action
  let g := fun i => a.getD i 0
  let mss : ℚ := (cfg.maxStepSize : ℚ)
  npRound (npRound (g 8 * mss / 2 + g 9 * mss / 4 + g 10 * mss / 8
    + g 11 * mss / 16 - g 12 * mss / 2 - g 13 * mss / 4 - g 14 * mss / 8
    - g 15 * mss / 16) * (1 + n2))

/-- The `World.step` of `image_2D.py` (lines 153–238), position and reward:
move each axis by its truncated step, clamp into
`[row_min, row_max] × [column_min, column_max]`, optionally saccade both
axes, and score `+1` exactly when **both** axis distances to the target
are strictly within `reward_region_width / 2` (Python 2 integer division
of the `int` region width).  There is no step-cost term. -/
def image2D_step (cfg : Image2DConfig) (s : Image2DState) (action : List ℚ)
    (n1 n2 jumpDraw : ℚ) (jumpRow jumpCol : ℤ) : Image2DState × ℚ :=
  let rowStep := image2D_rowStep cfg action n1
  let columnStep := image2D_columnStep cfg action n2
  let row1 := s.rowPosition + truncToInt rowStep
  let col1 := s.columnPosition + truncToInt columnStep
  let row2 := min (max row1 cfg.rowMin) cfg.rowMax
  let col2 := min (max col1 cfg.columnMin) cfg.columnMax
  let row3 := if jumpDraw < 1/20 then jumpRow else row2
  let col3 := if jumpDraw < 1/20 then jumpCol else col2
  let rewardedColumn := (col3 - (cfg.targetColumn : ℤ)).natAbs
    < cfg.rewardRegionWidth / 2
  let rewardedRow := (row3 - (cfg.targetRow : ℤ)).natAbs
    < cfg.rewardRegionWidth / 2
  let reward : ℚ := if rewardedColumn ∧ rewardedRow then 1 else 0
  ({ timestep := s.timestep + 1, rowPosition := row3,
     columnPosition := col3 }, reward)

/-- The reward the spec's sentence attributes to the 2-D visual-servo
world, written from the spec's words for comparison with the code: the
in-region bonus minus a step-cost term proportional to the magnitude of
the step taken (with the 1-D world's proportionality constant
`step_cost / max_step_size = (1/10) / max_step_size`). -/
def image2D_claimReward (cfg : Image2DConfig) (inRegion : Bool)
    (rowStep columnStep : ℚ) : ℚ :=
  (if inRegion then 1 else 0)
    - (|rowStep| + |columnStep|) / (cfg.maxStepSize : ℚ) * (1/10)

/-- C4 (counterexample): in `image_2D` on a 100×100 image, from position
(50, 50), the action stepping the row by `round(50/16) = 3` (no noise, no
saccade) lands inside the reward region and `step` returns reward exactly
`1`, although a step of nonzero magnitude was taken; the claimed reward
with a step-cost term would be `1 - 3/500 ≠ 1`.  The 2-D visual-servo
world has no step-cost term. -/
theorem image2D_no_step_cost_counterexample :
    (image2D_step ⟨100, 100⟩ ⟨0, 50, 50⟩
      [0, 0, 0, 1, 0, 0, 0, 0, 0, 0, 0, 0, 0, 0, 0, 0] 0 0 (1/2) 0 0).2
      = 1 ∧
    image2D_rowStep ⟨100, 100⟩
      [0, 0, 0, 1, 0, 0, 0, 0, 0, 0, 0, 0, 0, 0, 0, 0] 0 = 3 ∧
    image2D_claimReward ⟨100, 100⟩ true
      (image2D_rowStep ⟨100, 100⟩
        [0, 0, 0, 1, 0, 0, 0, 0, 0, 0, 0, 0, 0, 0, 0, 0] 0)
      (image2D_columnStep ⟨100, 100⟩
        [0, 0, 0, 1, 0, 0, 0, 0, 0, 0, 0, 0, 0, 0, 0, 0] 0)
      = 1 - 3/500 ∧
    (1 : ℚ) ≠ 1 - 3/500 := by
  norm_num [image2D_step, image2D_rowStep, image2D_columnStep,
    image2D_claimReward, ravelThreshold, npRound, truncToInt,
    Image2DConfig.imSize, Image2DConfig.maxStepSize,
    Image2DConfig.targetRow, Image2DConfig.targetColumn,
    Image2DConfig.rewardRegionWidth, Image2DConfig.rowMin,
    Image2DConfig.rowMax, Image2DConfig.columnMin, Image2DConfig.columnMax]

/-- C4 (amended): in `image_1D` the returned reward is the in-region
bonus at the final (post-jump) position minus the step cost
`|column_step| / max_step_size * step_cost`; in `image_2D` the returned
reward is the in-region bonus alone — `1` exactly when both axis
distances are within the radius (logical AND), else `0` — with no
step-cost term, so it always lies in `{0, 1}`. -/
theorem imageWorlds_reward_formula :
    (∀ (cfg : Image1DConfig) (s : Image1DState) (action : List ℚ)
      (u1 u2 jumpDraw : ℚ) (jumpPos : ℤ),
      (image1D_step cfg s action u1 u2 jumpDraw jumpPos).2
        = (if |((image1D_step cfg s action u1 u2 jumpDraw jumpPos).1.columnPosition : ℚ)
                - (cfg.targetColumn : ℚ)| < (cfg.rewardRegionWidth : ℚ) / 2
            then 1 else 0)
          - |(image1D_step cfg s action u1 u2 jumpDraw jumpPos).1.columnStep|
            / (cfg.maxStepSize : ℚ) * (1/10)) ∧
    (∀ (cfg : Image2DConfig) (s : Image2DState) (action : List ℚ)
      (n1 n2 jumpDraw : ℚ) (jumpRow jumpCol : ℤ),
      ((image2D_step cfg s action n1 n2 jumpDraw jumpRow jumpCol).2
        = if ((image2D_step cfg s action n1 n2 jumpDraw jumpRow jumpCol).1.columnPosition
                - (cfg.targetColumn : ℤ)).natAbs < cfg.rewardRegionWidth / 2
            ∧ ((image2D_step cfg s action n1 n2 jumpDraw jumpRow jumpCol).1.rowPosition
                - (cfg.targetRow : ℤ)).natAbs < cfg.rewardRegionWidth / 2
          then 1 else 0) ∧
      ((image2D_step cfg s action n1 n2 jumpDraw jumpRow jumpCol).2 = 0 ∨
       (image2D_step cfg s action n1 n2 jumpDraw jumpRow jumpCol).2 = 1)) := by
  constructor
  · intro cfg s action u1 u2 jumpDraw jumpPos
    simp only [image1D_step]
  · intro cfg s action n1 n2 jumpDraw jumpRow jumpCol
    refine ⟨by simp only [image2D_step], ?_⟩
    simp only [image2D_step]
    exact Or.symm (ite_eq_or_eq _ _ _)

/-!
## `beccatest/world_tools.py` — the center-surround transform

`center_surround(fov, fov_horz_span, fov_vert_span)` splits the
field-of-view into `(span+2) × (span+2)` block-averaged superpixels with
`block_height = fov_height / (vert_span + 2)` and
`block_width = fov_width / (horz_span + 2)`, block `k` covering pixel
rows `[int(k * block_height), int((k+1) * block_height))`, then for each
inner superpixel subtracts `1/6` of each edge neighbor and `1/12` of each
corner neighbor.  The field of view is modelled as a total function
`ℕ → ℕ → ℚ` together with its dimensions; `np.mean` of an empty block is
NaN in numpy and is modelled as `none`. -/

/-- Python `int(float(k) * blockSize)`: the pixel index where block `k` starts. -/
def blockBound (k : ℕ) (blockSize : ℚ) : ℕ :=
  (truncToInt ((k : ℚ) * blockSize)).toNat

/-- Numpy `np.mean` of the pixel block `[r0, r1) × [c0, c1)`: `none` on an
empty block (numpy's NaN), otherwise the sum divided by the count. -/
def blockMean (fov : ℕ → ℕ → ℚ) (r0 r1 c0 c1 : ℕ) : Option ℚ :=
  if r1 - r0 = 0 ∨ c1 - c0 = 0 then none
  else some ((((List.range (r1 - r0)).map (fun i =>
      ((List.range (c1 - c0)).map (fun j => fov (r0 + i) (c0 + j))).sum)).sum)
    / (((r1 - r0) * (c1 - c0) : ℕ) : ℚ))

/-- The superpixel `super_pixels[row][col]` of `center_surround` (lines 40–46). -/
def superPixel (fov : ℕ → ℕ → ℚ) (blockHeight blockWidth : ℚ)
    (row col : ℕ) : Option ℚ :=
  blockMean fov (blockBound row blockHeight) (blockBound (row + 1) blockHeight)
    (blockBound col blockWidth) (blockBound (col + 1) blockWidth)

/-- The function `center_surround` of `world_tools.py` (lines 13–88) at inner position
`(row, col)`: the center superpixel minus `1/6` of each of N, S, W, E and
`1/12` of each of NW, SW, NE, SE, in source order (lines 54–63); `none`
if any contributing block is empty. -/
def center_surround (fov : ℕ → ℕ → ℚ) (fovHeight fovWidth : ℕ)
    (fovHorzSpan fovVertSpan : ℕ) (row col : ℕ) : Option ℚ := do
  let blockHeight : ℚ := (fovHeight : ℚ) / ((fovVertSpan : ℚ) + 2)
  let blockWidth : ℚ := (fovWidth : ℚ) / ((fovHorzSpan : ℚ) + 2)
  let sp := fun r c => superPixel fov blockHeight blockWidth r c
  let center ← sp (row + 1) (col + 1)
  let vN ← sp row (col + 1)
  let vS ← sp (row + 2) (col + 1)
  let vW ← sp (row + 1) col
  let vE ← sp (row + 1) (col + 2)
  let vNW ← sp row col
  let vSW ← sp (row + 2) col
  let vNE ← sp row (col + 2)
  let vSE ← sp (row + 2) (col + 2)
  pure (center - vN/6 - vS/6 - vW/6 - vE/6 - vNW/12 - vSW/12 - vNE/12
    - vSE/12)

/-- Blocks of size at least one are nonempty: with `blockSize ≥ 1` the
start of block `k+1` lies strictly beyond the start of block `k`. -/
theorem blockBound_lt (blockSize : ℚ) (hb : 1 ≤ blockSize) (k : ℕ) :
    blockBound k blockSize < blockBound (k + 1) blockSize := by
  unfold blockBound truncToInt
  have h0 : (0:ℚ) ≤ (k : ℚ) * blockSize := by positivity
  have h1 : (0:ℚ) ≤ ((k:ℚ) + 1) * blockSize := by positivity
  rw [if_pos h0]
  rw [show ((k + 1 : ℕ) : ℚ) = (k : ℚ) + 1 by push_cast; ring, if_pos h1]
  have hfl : ⌊(k : ℚ) * blockSize⌋ + 1 ≤ ⌊((k:ℚ) + 1) * blockSize⌋ := by
    have : (k : ℚ) * blockSize + 1 ≤ ((k:ℚ) + 1) * blockSize := by nlinarith
    calc ⌊(k : ℚ) * blockSize⌋ + 1 = ⌊(k : ℚ) * blockSize + 1⌋ := by
          rw [Int.floor_add_one]
      _ ≤ ⌊((k:ℚ) + 1) * blockSize⌋ := Int.floor_le_floor this
  have hge : 0 ≤ ⌊(k : ℚ) * blockSize⌋ := Int.floor_nonneg.2 h0
  omega

/-- The block mean of a constant field of view over a nonempty block is
that constant. -/
theorem blockMean_const (c : ℚ) (r0 r1 c0 c1 : ℕ) (hr : r0 < r1)
    (hc : c0 < c1) :
    blockMean (fun _ _ => c) r0 r1 c0 c1 = some c := by
  unfold blockMean
  rw [if_neg (by omega)]
  congr 1
  have hinner : ∀ i : ℕ,
      ((List.range (c1 - c0)).map (fun _ => c)).sum = ((c1 - c0 : ℕ) : ℚ) * c := by
    intro i
    rw [List.map_const', List.sum_replicate, List.length_range,
      nsmul_eq_mul]
  rw [show (fun i => ((List.range (c1 - c0)).map
      (fun j => (fun _ _ => c) (r0 + i) (c0 + j))).sum)
    = (fun _ : ℕ => ((c1 - c0 : ℕ) : ℚ) * c) from funext (fun i => hinner i)]
  rw [List.map_const', List.sum_replicate, List.length_range, nsmul_eq_mul]
  have hnz : (((r1 - r0) * (c1 - c0) : ℕ) : ℚ) ≠ 0 := by
    exact_mod_cast Nat.mul_ne_zero (by omega) (by omega)
  push_cast at hnz ⊢
  field_simp
  ring

/-- A superpixel of a constant field of view is that constant whenever
the block sizes are at least one pixel. -/
theorem superPixel_const (c : ℚ) (blockHeight blockWidth : ℚ)
    (hh : 1 ≤ blockHeight) (hw : 1 ≤ blockWidth) (row col : ℕ) :
    superPixel (fun _ _ => c) blockHeight blockWidth row col = some c := by
  unfold superPixel
  exact blockMean_const c _ _ _ _ (blockBound_lt blockHeight hh row)
    (blockBound_lt blockWidth hw col)

/-- C6 (counterexample): on a 1×1 constant field of view with span 1 (a
positive span), the very first superpixel block is empty
(`int(1·1/3) = int(2·1/3) = 0`), `np.mean` of the empty block is NaN, and
the center-surround value is not the zero the claim asserts. -/
theorem center_surround_empty_block_counterexample :
    center_surround (fun _ _ => (1:ℚ)) 1 1 1 1 0 0 = none ∧
    (none : Option ℚ) ≠ some 0 := by
  constructor
  · norm_num [center_surround, superPixel, blockMean, blockBound, truncToInt]
  · simp

/-- C6 (amended): for every constant field of view whose height and width
are at least `span + 2` in each axis (so that every superpixel block is
nonempty), every center-surround output value is exactly zero: each
superpixel equals the constant `c` and
`c - 4·(c/6) - 4·(c/12) = 0`. -/
theorem center_surround_const_zero (c : ℚ) (fovHeight fovWidth : ℕ)
    (fovHorzSpan fovVertSpan : ℕ) (row col : ℕ)
    (hh : fovVertSpan + 2 ≤ fovHeight) (hw : fovHorzSpan + 2 ≤ fovWidth) :
    center_surround (fun _ _ => c) fovHeight fovWidth fovHorzSpan
      fovVertSpan row col = some 0 := by
  have hh' : (fovVertSpan : ℚ) + 2 ≤ (fovHeight : ℚ) := by exact_mod_cast hh
  have hw' : (fovHorzSpan : ℚ) + 2 ≤ (fovWidth : ℚ) := by exact_mod_cast hw
  have hbh : 1 ≤ (fovHeight : ℚ) / ((fovVertSpan : ℚ) + 2) := by
    rw [le_div_iff₀ (by positivity)]
    linarith
  have hbw : 1 ≤ (fovWidth : ℚ) / ((fovHorzSpan : ℚ) + 2) := by
    rw [le_div_iff₀ (by positivity)]
    linarith
  unfold center_surround
  simp only [superPixel_const c _ _ hbh hbw, Option.bind_eq_bind,
    Option.some_bind]
  congr 1
  ring

/-- C6 (witness): the amended statement instantiated on a 3×3 constant
field of view of intensity 7 with span 1. -/
theorem center_surround_const_zero_witness :
    center_surround (fun _ _ => (7:ℚ)) 3 3 1 1 0 0 = some 0 :=
  center_surround_const_zero 7 3 3 1 1 0 0 (by norm_num) (by norm_num)

end BeccaTest
